import Mathlib

/-!
Verification development for `pyannote/audio/labeling/extraction.py`
(class `SequenceLabeling`): sliding-window sequence labeling with
windowing → batching → scoring → overlap-add aggregation, plus a bounded
LRU feature cache.

Times and scores are modelled over `ℚ` (the source uses floating point;
all claims under audit are algebraic/indexing properties).  The per-frame
overlap counter of `apply` is an `np.int8` array, which we model exactly
as signed 8-bit wraparound arithmetic over `ℤ`.

External collaborators of the repository (pyannote.core's sliding-window
crop, pyannote.generators' segment and batch generators, cachetools'
LRUCache) are not part of this repository's source; they are modelled
from the specification, each with a doc comment saying so.
-/

set_option autoImplicit false
set_option maxRecDepth 100000

namespace SequenceLabeling

/-- Half-open time interval `[start, stop)` (pyannote `Segment`). -/
structure Segment where
  start : ℚ
  stop : ℚ
deriving DecidableEq

/-- Native frame grid of the feature extractor
(`feature_extraction.sliding_window`): frames of duration `fdur` every
`fstep` time units, frame `j` covering `[j*fstep, j*fstep + fdur)`. -/
structure FrameGrid where
  fstep : ℚ
  fdur : ℚ
deriving DecidableEq

/-- The `i`-th regenerated subsequence of
`SlidingWindow(duration=self.duration, step=self.step)` used by `apply`
(src line 215, 230): `[i*step, i*step + duration)`. -/
def subseq (step dur : ℚ) (i : ℕ) : Segment :=
  ⟨(i : ℚ) * step, (i : ℚ) * step + dur⟩

/-- Modelled from the spec: number of native-grid frames implied by a
fixed crop length (§4.3 "exactly the frame count implied by `duration` at
the Native Frame Grid's resolution"). -/
def nSamples (g : FrameGrid) (fixed : ℚ) : ℕ :=
  (round (fixed / g.fstep)).toNat

/-- Modelled from the spec: first frame index of a centered fixed-length
crop (§4.3, §4.5): the frame nearest the left edge of the fixed-duration
window centered on the segment's midpoint. -/
def cropStart (g : FrameGrid) (seg : Segment) (fixed : ℚ) : ℤ :=
  round (((seg.start + seg.stop) / 2 - fixed / 2 - g.fdur / 2) / g.fstep)

/-- Modelled from the spec: `crop(segment, mode=center, fixed)` (the crop
operation of the external feature collaborator, §3/§4.3): exactly
`nSamples` consecutive native-grid frame indices starting at
`cropStart`. -/
def cropIndices (g : FrameGrid) (seg : Segment) (fixed : ℚ) : List ℤ :=
  (List.range (nSamples g fixed)).map fun j => cropStart g seg fixed + (j : ℤ)

/-- Modelled from the spec: number of full-duration windows
`[i*step, i*step + dur)` fitting in the extent `L` (§4.1: start times
`0, step, 2*step, ...` each of length `dur`). -/
def nFullCount (dur step L : ℚ) : ℕ :=
  if dur ≤ L then (⌊(L - dur) / step⌋).toNat + 1 else 0

/-- Modelled from the spec: the optional final shorter window
`[nFull*step, L)`, produced only when `min_duration` is set and the
remaining extent is at least `min_duration` but less than `dur`
(§4.1). -/
def trailSeg (dur step : ℚ) (minDur : Option ℚ) (L : ℚ) : List Segment :=
  match minDur with
  | none => []
  | some m =>
      if m ≤ L - (nFullCount dur step L : ℚ) * step ∧
          L - (nFullCount dur step L : ℚ) * step < dur then
        [⟨(nFullCount dur step L : ℚ) * step, L⟩]
      else []

/-- Modelled from the spec: §4.1 Segment Generator (`SlidingSegments`
from pyannote.generators, external): full windows
`[i*step, i*step + dur)` while they fit in the extent `L`, plus the
optional final shorter window. -/
def genSegments (dur step : ℚ) (minDur : Option ℚ) (L : ℚ) : List Segment :=
  (List.range (nFullCount dur step L)).map
      (fun i => ⟨(i : ℚ) * step, (i : ℚ) * step + dur⟩) ++
    trailSeg dur step minDur L

/-- `self.step = generator.step if step is None else step` (src line 81);
the generator defaults to half the window duration (spec §4.1/§6). -/
def resolveStep (duration : ℚ) (step : Option ℚ) : ℚ :=
  step.getD (duration / 2)

/-! ## Overlap-add aggregation (src `apply`, lines 224-245)

`data` accumulates float sums (modelled over `ℚ`), `k` is the `np.int8`
overlap counter (src line 228), modelled with exact signed 8-bit
wraparound.  A window's model output has shape `(n_samples, n_scores)`
(src `_pack` docstring), modelled as a function from sample position and
class index to `ℚ`; `data[indices] += fX_` (src line 238) adds the row at
sample position `j` to frame `indices[j]`.  Indices outside the native
grid `0 ≤ f < n_frames` are disregarded (the spec defines aggregation on
native-grid frames only). -/

/-- Per-window model output: sample position → class index → score. -/
abbrev ScoreSeq := ℕ → ℕ → ℚ

/-- Reduction of an integer to a signed 8-bit value (`np.int8` wraps
modulo `2^8` into `[-128, 127]`). -/
def wrap8 (x : ℤ) : ℤ :=
  (x + 128) % 256 - 128

/-- Accumulator state of the overlap-add loop: `data f c` is the running
float sum at frame `f`, class `c`; `k f` the running int8 overlap count
at frame `f`. -/
structure AggState where
  data : ℕ → ℕ → ℚ
  k : ℕ → ℤ

/-- Both accumulators start at zero (src lines 225, 228). -/
def initAgg : AggState :=
  ⟨fun _ _ => 0, fun _ => 0⟩

/-- One iteration of the overlap-add loop (src lines 230-242) for window
number `i` with model output `v`: add `v`'s rows to `data` at the frames
cropped from the regenerated subsequence `[i*step, i*step+dur)` and
increment the int8 counter there. -/
def addWindow (g : FrameGrid) (dur step : ℚ) (i : ℕ) (v : ScoreSeq) (s : AggState) : AggState :=
  let idx := cropIndices g (subseq step dur i) dur
  let i0 := cropStart g (subseq step dur i) dur
  { data := fun f c => if (f : ℤ) ∈ idx then s.data f c + v ((f : ℤ) - i0).toNat c else s.data f c
    k := fun f => if (f : ℤ) ∈ idx then wrap8 (s.k f + 1) else s.k f }

/-- The overlap-add loop (src line 230: `for subsequence, fX_ in
zip(subsequences, fX)`), starting at window number `i`. -/
def runAgg (g : FrameGrid) (dur step : ℚ) : ℕ → List ScoreSeq → AggState → AggState
  | _, [], s => s
  | i, v :: rest, s => runAgg g dur step (i + 1) rest (addWindow g dur step i v s)

/-- Final int8 overlap counter at frame `f` after the loop (src `k`). -/
def storedK (g : FrameGrid) (dur step : ℚ) (fX : List ScoreSeq) (f : ℕ) : ℤ :=
  (runAgg g dur step 0 fX initAgg).k f

/-- Final aggregated score at frame `f`, class `c`:
`data / np.maximum(k, 1)` (src line 245). -/
def aggScore (g : FrameGrid) (dur step : ℚ) (fX : List ScoreSeq) (f c : ℕ) : ℚ :=
  (runAgg g dur step 0 fX initAgg).data f c / ((max (storedK g dur step fX f) 1 : ℤ) : ℚ)

/-- True (unbounded) number of windows, starting at window number `i`,
whose cropped frame set contains frame `f`. -/
def trueCount (g : FrameGrid) (dur step : ℚ) : ℕ → List ScoreSeq → ℕ → ℕ
  | _, [], _ => 0
  | i, _ :: rest, f =>
      (if (f : ℤ) ∈ cropIndices g (subseq step dur i) dur then 1 else 0) +
        trueCount g dur step (i + 1) rest f

/-- Exact sum, over all windows overlapping frame `f`, of the score each
contributes there (the row of its output aligned with `f`). -/
def contribSum (g : FrameGrid) (dur step : ℚ) : ℕ → List ScoreSeq → ℕ → ℕ → ℚ
  | _, [], _, _ => 0
  | i, v :: rest, f, c =>
      (if (f : ℤ) ∈ cropIndices g (subseq step dur i) dur then
        v ((f : ℤ) - cropStart g (subseq step dur i) dur).toNat c else 0) +
        contribSum g dur step (i + 1) rest f c

/-- The specification's "elementwise mean of the Score Vectors of all
windows whose (centered, fixed-duration) segment overlaps that frame". -/
def specMean (g : FrameGrid) (dur step : ℚ) (fX : List ScoreSeq) (f c : ℕ) : ℚ :=
  contribSum g dur step 0 fX f c / (trueCount g dur step 0 fX f : ℚ)

/-! ## Feature series and the LRU cache (src `preprocess`, lines 100-151) -/

/-- Whole-signal feature series (`shape (n_frames, n_features)`); the
feature values themselves are opaque to every claim. -/
structure FeatSeries where
  nFrames : ℕ
  data : ℕ → ℕ → ℚ

/-- `CACHE_MAXSIZE = 12` (src line 31). -/
def CACHE_MAXSIZE : ℕ := 12

/-- Cache contents, most-recently-used first. -/
abbrev Cache := List (ℕ × FeatSeries)

/-- Lookup by signal identifier. -/
def cacheLookup (c : Cache) (u : ℕ) : Option FeatSeries :=
  (c.find? fun p => p.1 == u).map fun p => p.2

/-- Modelled from the spec: insertion into `cachetools.LRUCache` (external
library; spec §3 "capacity fixed at 12 entries, eviction =
least-recently-used"): the new entry becomes most recent and the cache is
truncated to capacity, dropping the least recently used entries. -/
def cacheInsert (c : Cache) (u : ℕ) (fs : FeatSeries) : Cache :=
  (u, fs) :: ((c.filter fun p => p.1 != u).take (CACHE_MAXSIZE - 1))

/-- Modelled from the spec: a cache read refreshes the recency of the
entry that was read (least-recently-used bookkeeping). -/
def cacheTouch (c : Cache) (u : ℕ) : Cache :=
  match cacheLookup c u with
  | some fs => cacheInsert c u fs
  | none => c

/-! ## Pipeline data -/

/-- A `current_file` dict: a stable unique identifier
(`get_unique_identifier`), optionally embedded `"features"`, and the
usable extent of the signal's timeline. -/
structure CurrentFile where
  uri : ℕ
  features : Option FeatSeries
  extent : ℚ

/-- The feature-extraction collaborator (`self.feature_extraction`):
either a `Precomputed` instance (crop served directly from disk, plus a
`shape` query) or an on-demand extractor callable over a whole signal.
`grid` is its `sliding_window` (the native frame grid). -/
structure Extractor where
  precomputed : Bool
  extract : ℕ → Except String FeatSeries
  pshape : ℕ → ℕ
  pdata : ℕ → ℕ → ℕ → ℚ
  grid : FrameGrid

/-- The scoring model (`self.model`): optional duck-typed dimension
attributes and an opaque batched scoring function mapping a batch of
materialized windows to one score sequence per window. -/
structure NNModel where
  n_classes : Option ℕ
  output_dim : Option ℕ
  score : List (ℕ → ℕ → ℚ) → List ScoreSeq

/-- Constructor-time configuration (src `__init__`): `duration`,
`min_duration`, resolved `step`, `batch_size`, and the `incomplete` flag
passed to the batch generator at construction (src line 85 passes
`incomplete=False`, i.e. incomplete batches disallowed). -/
structure Config where
  duration : ℚ
  minDuration : Option ℚ
  step : ℚ
  batchSize : ℕ
  incomplete : Bool

/-- `dimension` property (src lines 87-94): `n_classes` if present, else
`output_dim`, else a `ValueError`. -/
def dimension (m : NNModel) : Except String ℕ :=
  match m.n_classes with
  | some n => .ok n
  | none =>
      match m.output_dim with
      | some d => .ok d
      | none => .error "Model has no n_classes nor output_dim attribute."

/-- Result of `preprocess`: the features available to `_process` (none
in the purely precomputed case), the cache afterwards, and whether
on-demand whole-signal extraction was invoked. -/
structure PreOut where
  feats : Option FeatSeries
  cache : Cache
  extracted : Bool

/-- `preprocess` (src lines 100-151): skip for `Precomputed`; skip when
`"features"` is already embedded; otherwise serve from the LRU cache,
invoking the extraction collaborator once on a miss.  A failed extraction
propagates and commits nothing to the cache (src lines 140-142). -/
def preprocess (ext : Extractor) (c : Cache) (file : CurrentFile) : Except String PreOut :=
  if ext.precomputed then .ok ⟨file.features, c, false⟩
  else
    match file.features with
    | some fs => .ok ⟨some fs, c, false⟩
    | none =>
        match cacheLookup c file.uri with
        | some fs => .ok ⟨some fs, cacheTouch c file.uri, false⟩
        | none =>
            match ext.extract file.uri with
            | .error e => .error e
            | .ok fs => .ok ⟨some fs, cacheInsert c file.uri fs, true⟩

/-- `_process` (src lines 153-173): materialize the window by a centered
fixed-duration crop, from the in-memory features when available and from
the precomputed extractor otherwise. -/
def materialize (ext : Extractor) (feats : Option FeatSeries) (uri : ℕ) (seg : Segment)
    (dur : ℚ) : ℕ → ℕ → ℚ :=
  let i0 := cropStart ext.grid seg dur
  match feats with
  | some fs => fun j c => fs.data (i0 + (j : ℤ)).toNat c
  | none => fun j c => ext.pdata uri (i0 + (j : ℤ)).toNat c

/-- Modelled from the spec: batch assembly of
`FileBasedBatchGenerator.from_file` (external package; spec §3 "ordered
group of up to `batch_size` materialized window sequences, assembled in
generation order; last batch may be partial except when an incomplete
batches disallowed flag is set, in which case trailing remainder below
`batch_size` is dropped").  `incomplete = true` keeps the trailing
partial batch. -/
def batchify {α : Type} (bs : ℕ) (incomplete : Bool) (xs : List α) : List (List α) :=
  (List.range (xs.length / bs)).map (fun i => (xs.drop (i * bs)).take bs) ++
    (if incomplete && (xs.length % bs != 0) then [xs.drop (bs * (xs.length / bs))] else [])

/-! ## `apply` (src lines 193-246) with an observable event trace -/

/-- Observable pipeline work: whole-signal on-demand feature extraction,
one scoring-model invocation on a batch of the given size, and one query
of the `dimension` property. -/
inductive Event where
  | extract (uri : ℕ)
  | score (n : ℕ)
  | dimQuery
deriving DecidableEq

/-- Prediction grid: `(rows, cols)` shape aligned with the native frame
grid, with the entry at frame `f`, class `c`. -/
structure Grid where
  rows : ℕ
  cols : ℕ
  entry : ℕ → ℕ → ℚ

/-- Outcome of one `apply` call: the ordered trace of observable work,
the returned grid or the propagated error, and the cache afterwards. -/
structure ApplyOut where
  trace : List Event
  result : Except String Grid
  cache : Cache

/-- Total native frame count (src lines 218-222): `shape` of the
precomputed extractor, else `self.preprocessed_[uri].data.shape` — a read
of the LRU cache (which refreshes recency, and fails when the signal was
never cached). -/
def nFramesOf (ext : Extractor) (c : Cache) (file : CurrentFile) : Except String (ℕ × Cache) :=
  if ext.precomputed then .ok (ext.pshape file.uri, c)
  else
    match cacheLookup c file.uri with
    | some fs => .ok (fs.nFrames, cacheTouch c file.uri)
    | none => .error "uri not found in preprocessed cache"

/-- The materialized windows of one `apply` call, in generation order
(src lines 153-173 via `from_file`). -/
def windowsOf (ext : Extractor) (cfg : Config) (file : CurrentFile)
    (feats : Option FeatSeries) : List (ℕ → ℕ → ℚ) :=
  (genSegments cfg.duration cfg.step cfg.minDuration file.extent).map
    fun s => materialize ext feats file.uri s cfg.duration

/-- The batches scored by one `apply` call: `incomplete=True` is
hardcoded at the `from_file` call site (src line 208), regardless of the
`incomplete=False` passed at construction (src line 85). -/
def batchesOf (ext : Extractor) (cfg : Config) (file : CurrentFile)
    (feats : Option FeatSeries) : List (List (ℕ → ℕ → ℚ)) :=
  batchify cfg.batchSize true (windowsOf ext cfg file feats)

/-- The per-batch model outputs (one model invocation per batch). -/
def scoredOf (ext : Extractor) (model : NNModel) (cfg : Config) (file : CurrentFile)
    (feats : Option FeatSeries) : List (List ScoreSeq) :=
  (batchesOf ext cfg file feats).map model.score

/-- One scoring event per batch, in order. -/
def scoreTraceOf (ext : Extractor) (cfg : Config) (file : CurrentFile)
    (feats : Option FeatSeries) : List Event :=
  (batchesOf ext cfg file feats).map fun b => Event.score b.length

/-- The body of `apply` after `preprocess` (src lines 205-246):
materialize and score the windows batchwise, and either return the
empty `(0, dimension)` grid (src lines 209-211) or overlap-add the
stacked scores onto the native frame grid (src lines 213-246). -/
def applyWith (ext : Extractor) (model : NNModel) (cfg : Config) (file : CurrentFile)
    (feats : Option FeatSeries) (c1 : Cache) (preTrace : List Event) : ApplyOut :=
  if (scoredOf ext model cfg file feats).isEmpty then
    match dimension model with
    | .error e =>
        ⟨preTrace ++ scoreTraceOf ext cfg file feats ++ [Event.dimQuery], .error e, c1⟩
    | .ok d =>
        ⟨preTrace ++ scoreTraceOf ext cfg file feats ++ [Event.dimQuery],
          .ok ⟨0, d, fun _ _ => 0⟩, c1⟩
  else
    match nFramesOf ext c1 file with
    | .error e => ⟨preTrace ++ scoreTraceOf ext cfg file feats, .error e, c1⟩
    | .ok (nF, c2) =>
        match dimension model with
        | .error e =>
            ⟨preTrace ++ scoreTraceOf ext cfg file feats ++ [Event.dimQuery], .error e, c2⟩
        | .ok d =>
            ⟨preTrace ++ scoreTraceOf ext cfg file feats ++ [Event.dimQuery],
              .ok ⟨nF, d,
                aggScore ext.grid cfg.duration cfg.step
                  (scoredOf ext model cfg file feats).flatten⟩, c2⟩

/-- `apply` (src lines 193-246): preprocess (on-demand extraction through
the LRU cache), then window, batch, score and aggregate. -/
def apply (ext : Extractor) (model : NNModel) (cfg : Config) (c : Cache)
    (file : CurrentFile) : ApplyOut :=
  match preprocess ext c file with
  | .error e => ⟨[Event.extract file.uri], .error e, c⟩
  | .ok pre =>
      applyWith ext model cfg file pre.feats pre.cache
        (if pre.extracted then [Event.extract file.uri] else [])

/-- Error component of an `apply` outcome, when it failed. -/
def resultError (a : ApplyOut) : Option String :=
  match a.result with
  | .error e => some e
  | .ok _ => none

/-- Grid entry of an `apply` outcome (zero when the call failed). -/
def resultEntry (a : ApplyOut) (f c : ℕ) : ℚ :=
  match a.result with
  | .ok g => g.entry f c
  | .error _ => 0

/-- Row count of the returned grid (zero when the call failed). -/
def resultRows (a : ApplyOut) : ℕ :=
  match a.result with
  | .ok g => g.rows
  | .error _ => 0

/-- Cache state after a sequence of `preprocess` calls (claim C7's
"on-demand processing of 13 distinct signals"); a failed call leaves the
cache unchanged. -/
def cacheAfter (ext : Extractor) (files : List CurrentFile) (c : Cache) : Cache :=
  files.foldl
    (fun acc file =>
      match preprocess ext acc file with
      | .ok r => r.cache
      | .error _ => acc) c

/-- Every cached entry is exactly what the extraction collaborator
returns for its key: the invariant under which the cache is a pure
memoization of `extract`. -/
def coherent (ext : Extractor) (c : Cache) : Prop :=
  ∀ p ∈ c, ext.extract p.1 = .ok p.2

/-! ## Arithmetic of the int8 counter -/

theorem wrap8_wrap8_add (a b : ℤ) : wrap8 (wrap8 a + b) = wrap8 (a + b) := by
  unfold wrap8
  omega

theorem wrap8_idem (a : ℤ) : wrap8 (wrap8 a) = wrap8 a := by
  have h := wrap8_wrap8_add a 0
  simpa using h

theorem wrap8_eq_self {x : ℤ} (h1 : -128 ≤ x) (h2 : x ≤ 127) : wrap8 x = x := by
  unfold wrap8
  omega

theorem wrap8_le (x : ℤ) : wrap8 x ≤ 127 := by
  unfold wrap8
  omega

/-! ## The overlap-add loop, characterized per frame -/

theorem runAgg_data (g : FrameGrid) (dur step : ℚ) (fX : List ScoreSeq) :
    ∀ (i : ℕ) (s : AggState) (f c : ℕ),
      (runAgg g dur step i fX s).data f c = s.data f c + contribSum g dur step i fX f c := by
  induction fX with
  | nil => intro i s f c; simp [runAgg, contribSum]
  | cons v rest ih =>
      intro i s f c
      rw [runAgg, ih, contribSum]
      by_cases hm : (f : ℤ) ∈ cropIndices g (subseq step dur i) dur
      · simp [addWindow, hm]; ring
      · simp [addWindow, hm]

theorem runAgg_k (g : FrameGrid) (dur step : ℚ) (fX : List ScoreSeq) :
    ∀ (i : ℕ) (s : AggState) (f : ℕ), wrap8 (s.k f) = s.k f →
      (runAgg g dur step i fX s).k f = wrap8 (s.k f + (trueCount g dur step i fX f : ℤ)) := by
  induction fX with
  | nil => intro i s f hs; simp [runAgg, trueCount, hs]
  | cons v rest ih =>
      intro i s f hs
      rw [runAgg, trueCount]
      by_cases hm : (f : ℤ) ∈ cropIndices g (subseq step dur i) dur
      · have hk : (addWindow g dur step i v s).k f = wrap8 (s.k f + 1) := by
          simp [addWindow, hm]
        rw [ih (i + 1) _ f (by rw [hk]; exact wrap8_idem _), hk, wrap8_wrap8_add]
        simp [hm]
        ring_nf
      · have hk : (addWindow g dur step i v s).k f = s.k f := by
          simp [addWindow, hm]
        rw [ih (i + 1) _ f (by rw [hk]; exact hs), hk]
        simp [hm]

/-- The stored int8 counter is the true overlap count reduced as a
signed byte. -/
theorem storedK_eq_wrap8 (g : FrameGrid) (dur step : ℚ) (fX : List ScoreSeq) (f : ℕ) :
    storedK g dur step fX f = wrap8 (trueCount g dur step 0 fX f : ℤ) := by
  have h := runAgg_k g dur step fX 0 initAgg f (by simp [initAgg, wrap8])
  simpa [storedK, initAgg] using h

/-- The accumulated float sum is the exact sum of the contributing
rows. -/
theorem aggData_eq_contribSum (g : FrameGrid) (dur step : ℚ) (fX : List ScoreSeq) (f c : ℕ) :
    (runAgg g dur step 0 fX initAgg).data f c = contribSum g dur step 0 fX f c := by
  have h := runAgg_data g dur step fX 0 initAgg f c
  simpa [initAgg] using h

theorem contribSum_of_count_zero (g : FrameGrid) (dur step : ℚ) (fX : List ScoreSeq) :
    ∀ (i : ℕ) (f c : ℕ), trueCount g dur step i fX f = 0 →
      contribSum g dur step i fX f c = 0 := by
  induction fX with
  | nil => intro i f c _; simp [contribSum]
  | cons v rest ih =>
      intro i f c h
      rw [trueCount] at h
      rw [contribSum]
      by_cases hm : (f : ℤ) ∈ cropIndices g (subseq step dur i) dur
      · simp [hm] at h
      · simp [hm] at h ⊢
        exact ih (i + 1) f c h

/-! ## Claim C3 -/

/-- Claim C3, amended: for every **full-duration** window produced by
the Segment Generator (in particular for every window whenever
`min_duration` is unset), the centered fixed-duration crop of the
original segment — the frames materialized for the window — is exactly
the centered fixed-duration crop of the regenerated aggregation
subsequence `[i*step, i*step + duration)`, so scores are added at
exactly the materialized frames.  (As stated, for *every* window, the
claim fails: a shorter trailing window (`min_duration` set) has a
different center than its regenerated fixed-duration subsequence and
its crop can start at different frames, see the counterexample.) -/
theorem claim_C3_full_window_same_indices (g : FrameGrid) (dur step : ℚ)
    (minDur : Option ℚ) (L : ℚ) (i : ℕ) (seg : Segment)
    (hget : (genSegments dur step minDur L)[i]? = some seg)
    (hfull : seg.stop = seg.start + dur) :
    cropIndices g seg dur = cropIndices g (subseq step dur i) dur := by
  unfold genSegments at hget
  rw [List.getElem?_append, List.length_map, List.length_range] at hget
  by_cases hi : i < nFullCount dur step L
  · rw [if_pos hi] at hget
    rw [List.getElem?_map] at hget
    rw [List.getElem?_range hi, Option.map_some'] at hget
    rw [← Option.some.inj hget]
    rfl
  · rw [if_neg hi] at hget
    rcases minDur with _ | m
    · simp [trailSeg] at hget
    · rw [trailSeg] at hget
      by_cases hc : m ≤ L - (nFullCount dur step L : ℚ) * step ∧
          L - (nFullCount dur step L : ℚ) * step < dur
      · rw [if_pos hc] at hget
        rcases hj : i - nFullCount dur step L with _ | k
        · rw [hj] at hget
          simp only [List.getElem?_cons_zero, Option.some.injEq] at hget
          rw [← hget] at hfull
          simp only at hfull
          exact absurd hfull (by have h2 := hc.2; intro he; rw [he] at h2; linarith)
        · rw [hj] at hget
          simp at hget
      · rw [if_neg hc] at hget
        simp at hget

/-- Claim C3, counterexample to the claim as stated: with `duration = 1`,
`step = 1/2`, `min_duration = 1/10` and extent `11/5`, the generator
produces the shorter trailing window `[3/2, 11/5)` as window 3; on a
native grid of `1/10`-long frames, the centered fixed-duration crop of
that original segment starts at frame 13 while the crop of the
regenerated aggregation subsequence `[3/2, 5/2)` starts at frame 15, so
the scores are not added at the materialized frames. -/
theorem claim_C3_counterexample :
    (genSegments 1 (1/2) (some (1/10)) (11/5))[3]? = some ⟨3/2, 11/5⟩ ∧
      cropIndices ⟨1/10, 1/10⟩ ⟨3/2, 11/5⟩ 1 ≠ cropIndices ⟨1/10, 1/10⟩ (subseq (1/2) 1 3) 1 := by
  with_unfolding_all decide

/-- Claim C3, witness: the first (full) window of a two-window run has
identical materialization and aggregation crops. -/
theorem claim_C3_witness :
    (genSegments 1 1 none 2)[0]? = some ⟨0, 1⟩ ∧
      (⟨0, 1⟩ : Segment).stop = (⟨0, 1⟩ : Segment).start + 1 ∧
      cropIndices ⟨1, 1⟩ ⟨0, 1⟩ 1 = cropIndices ⟨1, 1⟩ (subseq 1 1 0) 1 :=
  ⟨by with_unfolding_all decide, by with_unfolding_all decide,
    claim_C3_full_window_same_indices ⟨1, 1⟩ 1 1 none 2 0 ⟨0, 1⟩
      (by with_unfolding_all decide) (by with_unfolding_all decide)⟩

/-! ## Cache lemmas -/

theorem cacheLookup_cacheInsert_self (c : Cache) (u : ℕ) (fs : FeatSeries) :
    cacheLookup (cacheInsert c u fs) u = some fs := by
  unfold cacheLookup cacheInsert
  rw [List.find?_cons_of_pos _ (by simp)]
  rfl

theorem cacheLookup_cacheTouch_self {c : Cache} {u : ℕ} {fs : FeatSeries}
    (h : cacheLookup c u = some fs) : cacheLookup (cacheTouch c u) u = some fs := by
  rw [cacheTouch, h]
  exact cacheLookup_cacheInsert_self c u fs

theorem mem_of_cacheLookup {c : Cache} {u : ℕ} {fs : FeatSeries}
    (h : cacheLookup c u = some fs) : (u, fs) ∈ c := by
  unfold cacheLookup at h
  cases hf : c.find? fun q => q.1 == u with
  | none => rw [hf] at h; simp at h
  | some q =>
      rw [hf] at h
      have h2 : q.2 = fs := by simpa using h
      have hm := List.mem_of_find?_eq_some hf
      have hp := List.find?_some hf
      have hu : q.1 = u := by simpa using hp
      have he : q = (u, fs) := Prod.ext hu h2
      rwa [he] at hm

theorem coherent_extract {ext : Extractor} {c : Cache} {u : ℕ} {fs : FeatSeries}
    (hco : coherent ext c) (h : cacheLookup c u = some fs) : ext.extract u = .ok fs :=
  hco (u, fs) (mem_of_cacheLookup h)

theorem coherent_cacheInsert {ext : Extractor} {c : Cache} {u : ℕ} {fs : FeatSeries}
    (hco : coherent ext c) (hex : ext.extract u = .ok fs) :
    coherent ext (cacheInsert c u fs) := by
  intro p hp
  unfold cacheInsert at hp
  rcases List.mem_cons.mp hp with h | h
  · rw [h]; exact hex
  · exact hco p (List.mem_of_mem_filter (List.mem_of_mem_take h))

theorem coherent_cacheTouch {ext : Extractor} {c : Cache} {u : ℕ}
    (hco : coherent ext c) : coherent ext (cacheTouch c u) := by
  unfold cacheTouch
  cases h : cacheLookup c u with
  | none => exact hco
  | some fs => exact coherent_cacheInsert hco (coherent_extract hco h)

/-! ## `applyWith` is cache-oblivious in its result -/

theorem nFramesOf_eq_of_lookup {ext : Extractor} {c : Cache} {file : CurrentFile}
    {fs : FeatSeries} (hpre : ext.precomputed = false)
    (h : cacheLookup c file.uri = some fs) :
    nFramesOf ext c file = .ok (fs.nFrames, cacheTouch c file.uri) := by
  unfold nFramesOf
  rw [hpre, h]
  rfl

theorem nFramesOf_eq_of_miss {ext : Extractor} {c : Cache} {file : CurrentFile}
    (hpre : ext.precomputed = false) (h : cacheLookup c file.uri = none) :
    nFramesOf ext c file = .error "uri not found in preprocessed cache" := by
  unfold nFramesOf
  rw [hpre, h]
  rfl

theorem applyWith_result_congr (ext : Extractor) (model : NNModel) (cfg : Config)
    (file : CurrentFile) (feats : Option FeatSeries) {c1 c2 : Cache} (t1 t2 : List Event)
    (hpre : ext.precomputed = false)
    (h : cacheLookup c1 file.uri = cacheLookup c2 file.uri) :
    (applyWith ext model cfg file feats c1 t1).result =
      (applyWith ext model cfg file feats c2 t2).result := by
  unfold applyWith
  by_cases he : (scoredOf ext model cfg file feats).isEmpty
  · rw [if_pos he, if_pos he]
    cases dimension model <;> rfl
  · rw [if_neg he, if_neg he]
    cases hl : cacheLookup c2 file.uri with
    | none =>
        rw [nFramesOf_eq_of_miss hpre (h.trans hl), nFramesOf_eq_of_miss hpre hl]
    | some fs =>
        rw [nFramesOf_eq_of_lookup hpre (h.trans hl), nFramesOf_eq_of_lookup hpre hl]
        cases dimension model <;> rfl

theorem applyWith_cache_cases (ext : Extractor) (model : NNModel) (cfg : Config)
    (file : CurrentFile) (feats : Option FeatSeries) (c1 : Cache) (t1 : List Event) :
    (applyWith ext model cfg file feats c1 t1).cache = c1 ∨
      (applyWith ext model cfg file feats c1 t1).cache = cacheTouch c1 file.uri := by
  unfold applyWith
  by_cases he : (scoredOf ext model cfg file feats).isEmpty
  · rw [if_pos he]
    cases dimension model <;> exact Or.inl rfl
  · rw [if_neg he]
    cases hnf : nFramesOf ext c1 file with
    | error e => exact Or.inl rfl
    | ok pr =>
        have hc : pr.2 = c1 ∨ pr.2 = cacheTouch c1 file.uri := by
          unfold nFramesOf at hnf
          by_cases hpre : ext.precomputed = true
          · rw [if_pos hpre] at hnf
            exact Or.inl (congrArg Prod.snd (Except.ok.inj hnf)).symm
          · rw [if_neg hpre] at hnf
            cases hl : cacheLookup c1 file.uri with
            | none => rw [hl] at hnf; exact absurd hnf (by simp)
            | some fs =>
                rw [hl] at hnf
                exact Or.inr (congrArg Prod.snd (Except.ok.inj hnf)).symm
        cases pr with
        | mk nF c2 =>
            cases dimension model <;> simpa using hc

theorem applyWith_cache_lookup (ext : Extractor) (model : NNModel) (cfg : Config)
    (file : CurrentFile) (feats : Option FeatSeries) {c1 : Cache} (t1 : List Event)
    {fs : FeatSeries} (h : cacheLookup c1 file.uri = some fs) :
    cacheLookup (applyWith ext model cfg file feats c1 t1).cache file.uri = some fs := by
  rcases applyWith_cache_cases ext model cfg file feats c1 t1 with hc | hc
  · rw [hc]; exact h
  · rw [hc]; exact cacheLookup_cacheTouch_self h

/-! ## Characterizations of `preprocess` and `batchify` -/

theorem preprocess_miss {ext : Extractor} {c : Cache} {file : CurrentFile} {fs : FeatSeries}
    (hpre : ext.precomputed = false) (hemb : file.features = none)
    (hmiss : cacheLookup c file.uri = none) (hex : ext.extract file.uri = .ok fs) :
    preprocess ext c file = .ok ⟨some fs, cacheInsert c file.uri fs, true⟩ := by
  unfold preprocess
  rw [hpre]
  simp only [Bool.false_eq_true, if_false]
  rw [hemb, hmiss, hex]

theorem preprocess_hit {ext : Extractor} {c : Cache} {file : CurrentFile} {fs : FeatSeries}
    (hpre : ext.precomputed = false) (hemb : file.features = none)
    (hhit : cacheLookup c file.uri = some fs) :
    preprocess ext c file = .ok ⟨some fs, cacheTouch c file.uri, false⟩ := by
  unfold preprocess
  rw [hpre]
  simp only [Bool.false_eq_true, if_false]
  rw [hemb, hhit]

theorem preprocess_extract_error {ext : Extractor} {c : Cache} {file : CurrentFile} {e : String}
    (hpre : ext.precomputed = false) (hemb : file.features = none)
    (hmiss : cacheLookup c file.uri = none) (hex : ext.extract file.uri = .error e) :
    preprocess ext c file = .error e := by
  unfold preprocess
  rw [hpre]
  simp only [Bool.false_eq_true, if_false]
  rw [hemb, hmiss, hex]

theorem batchify_nil {α : Type} (bs : ℕ) (inc : Bool) : batchify bs inc ([] : List α) = [] := by
  unfold batchify
  simp

theorem batchify_single {α : Type} (bs : ℕ) (xs : List α) (h0 : 0 < xs.length)
    (hb : xs.length < bs) : batchify bs true xs = [xs] := by
  unfold batchify
  rw [Nat.div_eq_of_lt hb, Nat.mod_eq_of_lt hb]
  simp [h0.ne']

theorem count_dimQuery_scoreTraceOf (ext : Extractor) (cfg : Config) (file : CurrentFile)
    (feats : Option FeatSeries) : (scoreTraceOf ext cfg file feats).count Event.dimQuery = 0 := by
  unfold scoreTraceOf
  rw [List.count_eq_zero]
  intro hmem
  rcases List.mem_map.mp hmem with ⟨b, _, hb⟩
  exact Event.noConfusion hb

/-! ## Concrete fixtures used by witnesses and counterexamples -/

/-- Native grid with unit frame step and duration. -/
def ceGrid : FrameGrid := ⟨1, 1⟩

/-- A feature series of ten frames of zeros. -/
def exFs : FeatSeries := ⟨10, fun _ _ => 0⟩

/-- On-demand extractor always returning `exFs`, unit frame grid. -/
def exZero : Extractor := ⟨false, fun _ => .ok exFs, fun _ => 0, fun _ _ _ => 0, ⟨1, 1⟩⟩

/-- On-demand extractor that always fails. -/
def exFail : Extractor := ⟨false, fun _ => .error "extraction failed", fun _ => 0, fun _ _ _ => 0, ⟨1, 1⟩⟩

/-- Model with `n_classes = 2` returning constant score 1 everywhere. -/
def modelOne : NNModel := ⟨some 2, none, fun batch => batch.map fun _ => fun _ _ => 1⟩

/-- Model with neither `n_classes` nor `output_dim`. -/
def modelNoDim : NNModel := ⟨none, none, fun batch => batch.map fun _ => fun _ _ => 1⟩

/-- `duration 1`, no `min_duration`, `step 1`, `batch_size 32`,
incomplete batches disallowed at construction (as in the source). -/
def cfgA : Config := ⟨1, none, 1, 32, false⟩

/-- A ten-second signal: ten windows under `cfgA`. -/
def fileTen : CurrentFile := ⟨7, none, 10⟩

/-- A 0.3-second signal: zero windows under `cfgA`. -/
def fileShort : CurrentFile := ⟨7, none, 3/10⟩

/-- Thirteen distinct signals, identifiers 0 through 12. -/
def files13 : List CurrentFile := (List.range 13).map fun j => ⟨j, none, 0⟩

/-- Whether a `preprocess` call invoked on-demand extraction. -/
def preExtracted (r : Except String PreOut) : Bool :=
  match r with
  | .ok p => p.extracted
  | .error _ => false

/-- 128 constant unit score sequences: enough windows on one frame to
wrap the int8 overlap counter. -/
def ceScores : List ScoreSeq := List.replicate 128 fun _ _ => 1

/-- Two windows with constant scores 3 and 5. -/
def twoScores : List ScoreSeq := [fun _ _ => 3, fun _ _ => 5]

/-- A single window with constant score 1. -/
def oneScore : List ScoreSeq := [fun _ _ => 1]

/-! ## Claim C1 -/

/-- Claim C1, amended: for every frame whose true overlap count is at
least 1 **and at most 127**, the aggregated score equals the elementwise
mean of the contributions of all windows whose centered fixed-duration
crop contains that frame.  (As stated, with no upper bound, the claim
fails: the int8 counter wraps past 127, see the counterexample.) -/
theorem claim_C1_mean_requires_count_le_127 (g : FrameGrid) (dur step : ℚ)
    (fX : List ScoreSeq) (f c : ℕ)
    (h1 : 1 ≤ trueCount g dur step 0 fX f) (h2 : trueCount g dur step 0 fX f ≤ 127) :
    aggScore g dur step fX f c = specMean g dur step fX f c := by
  have hz : ((trueCount g dur step 0 fX f : ℤ)) ≤ 127 := by exact_mod_cast h2
  have ho : (1 : ℤ) ≤ (trueCount g dur step 0 fX f : ℤ) := by exact_mod_cast h1
  unfold aggScore specMean
  rw [aggData_eq_contribSum, storedK_eq_wrap8, wrap8_eq_self (by omega) hz, max_eq_left ho]
  norm_cast

/-- Claim C1, counterexample to the claim as stated: with 128 windows
overlapping frame 0 (each with constant score 1), the overlap count is
at least 1, yet the aggregated score is 128 while the elementwise mean
is 1 — the int8 counter wrapped to -128 and the divisor became 1. -/
theorem claim_C1_counterexample :
    1 ≤ trueCount ceGrid 1 (1/128) 0 ceScores 0 ∧
      aggScore ceGrid 1 (1/128) ceScores 0 0 ≠ specMean ceGrid 1 (1/128) ceScores 0 0 := by
  with_unfolding_all decide

/-- Claim C1, witness: two windows overlap frame 1 with scores 3 and 5;
the aggregated score equals their mean. -/
theorem claim_C1_witness :
    1 ≤ trueCount ceGrid 2 1 0 twoScores 1 ∧ trueCount ceGrid 2 1 0 twoScores 1 ≤ 127 ∧
      aggScore ceGrid 2 1 twoScores 1 0 = specMean ceGrid 2 1 twoScores 1 0 :=
  ⟨by with_unfolding_all decide, by with_unfolding_all decide,
    claim_C1_mean_requires_count_le_127 ceGrid 2 1 twoScores 1 0
      (by with_unfolding_all decide) (by with_unfolding_all decide)⟩

/-! ## Claim C2 -/

/-- Claim C2 (confirmed): at every frame overlapped by zero windows the
aggregated score is exactly zero, and the averaging divisor
`max(count, 1)` there is exactly 1 (never a division by zero). -/
theorem claim_C2_zero_count_zero_score (g : FrameGrid) (dur step : ℚ)
    (fX : List ScoreSeq) (f c : ℕ) (h : trueCount g dur step 0 fX f = 0) :
    aggScore g dur step fX f c = 0 ∧ max (storedK g dur step fX f) 1 = 1 := by
  have hk : storedK g dur step fX f = 0 := by
    rw [storedK_eq_wrap8, h]
    decide
  refine ⟨?_, by rw [hk]; decide⟩
  unfold aggScore
  rw [aggData_eq_contribSum, contribSum_of_count_zero g dur step fX 0 f c h]
  simp

/-- Claim C2, witness: frame 5 is overlapped by no window of a
one-window run, and its aggregated score is zero with divisor 1. -/
theorem claim_C2_witness :
    trueCount ceGrid 1 1 0 oneScore 5 = 0 ∧
      aggScore ceGrid 1 1 oneScore 5 0 = 0 ∧ max (storedK ceGrid 1 1 oneScore 5) 1 = 1 :=
  ⟨by with_unfolding_all decide,
    (claim_C2_zero_count_zero_score ceGrid 1 1 oneScore 5 0 (by with_unfolding_all decide)).1,
    (claim_C2_zero_count_zero_score ceGrid 1 1 oneScore 5 0 (by with_unfolding_all decide)).2⟩

/-! ## Claim C10 -/

/-- Claim C10 (confirmed): the per-frame overlap counter is an 8-bit
signed integer: (i) the stored count is always the true overlap count
reduced as a signed byte (modulo `2^8`); (ii) for true counts between 1
and 127 the averaging divisor `max(count, 1)` equals the true count;
(iii) for true counts of 128 or more it never does; and (iv) concretely,
with 128 overlapping windows the count wraps and the averaged score is
no longer the mean of the contributing vectors. -/
theorem claim_C10_int8_counter :
    (∀ (g : FrameGrid) (dur step : ℚ) (fX : List ScoreSeq) (f : ℕ),
      storedK g dur step fX f = wrap8 (trueCount g dur step 0 fX f : ℤ)) ∧
    (∀ (g : FrameGrid) (dur step : ℚ) (fX : List ScoreSeq) (f : ℕ),
      1 ≤ trueCount g dur step 0 fX f → trueCount g dur step 0 fX f ≤ 127 →
        max (storedK g dur step fX f) 1 = (trueCount g dur step 0 fX f : ℤ)) ∧
    (∀ (g : FrameGrid) (dur step : ℚ) (fX : List ScoreSeq) (f : ℕ),
      128 ≤ trueCount g dur step 0 fX f →
        max (storedK g dur step fX f) 1 ≠ (trueCount g dur step 0 fX f : ℤ)) ∧
    (trueCount ceGrid 1 (1/128) 0 ceScores 0 = 128 ∧
      aggScore ceGrid 1 (1/128) ceScores 0 0 ≠ specMean ceGrid 1 (1/128) ceScores 0 0) := by
  refine ⟨fun g dur step fX f => storedK_eq_wrap8 g dur step fX f, ?_, ?_, ?_⟩
  · intro g dur step fX f h1 h2
    have hz : ((trueCount g dur step 0 fX f : ℤ)) ≤ 127 := by exact_mod_cast h2
    have ho : (1 : ℤ) ≤ (trueCount g dur step 0 fX f : ℤ) := by exact_mod_cast h1
    rw [storedK_eq_wrap8, wrap8_eq_self (by omega) hz, max_eq_left ho]
  · intro g dur step fX f h
    have hh : (128 : ℤ) ≤ (trueCount g dur step 0 fX f : ℤ) := by exact_mod_cast h
    have hle : storedK g dur step fX f ≤ 127 := by
      rw [storedK_eq_wrap8]; exact wrap8_le _
    have : max (storedK g dur step fX f) 1 ≤ 127 := by omega
    omega
  · exact ⟨by with_unfolding_all decide, by with_unfolding_all decide⟩

/-! ## Claim C4 -/

/-- Claim C4, amended: when the scoring model exposes neither
`n_classes` nor `output_dim`, `apply` fails at its first (and only)
dimension query with the configuration `ValueError` and the failure is
not retried — but the query happens only **after** on-demand feature
extraction and batch scoring (the trace ends with the single dimension
query, preceded by the extraction event and one scoring event per
batch).  (As stated — failing *before* any extraction or scoring work —
the claim is refuted by the counterexample, whose failing call's trace
contains the extraction and scoring events.) -/
theorem claim_C4_dim_failure_after_work (ext : Extractor) (model : NNModel) (cfg : Config)
    (c : Cache) (file : CurrentFile) (fs : FeatSeries)
    (hnc : model.n_classes = none) (hod : model.output_dim = none)
    (hpre : ext.precomputed = false) (hemb : file.features = none)
    (hmiss : cacheLookup c file.uri = none) (hex : ext.extract file.uri = .ok fs) :
    resultError (apply ext model cfg c file) =
      some "Model has no n_classes nor output_dim attribute." ∧
    (apply ext model cfg c file).trace =
      Event.extract file.uri :: (scoreTraceOf ext cfg file (some fs) ++ [Event.dimQuery]) ∧
    (apply ext model cfg c file).trace.count Event.dimQuery = 1 := by
  have hdim : dimension model = .error "Model has no n_classes nor output_dim attribute." := by
    unfold dimension
    rw [hnc, hod]
  have happ : apply ext model cfg c file =
      applyWith ext model cfg file (some fs) (cacheInsert c file.uri fs)
        [Event.extract file.uri] := by
    unfold apply
    rw [preprocess_miss hpre hemb hmiss hex]
    rfl
  have hcount : ∀ t, t = Event.extract file.uri ::
      (scoreTraceOf ext cfg file (some fs) ++ [Event.dimQuery]) →
      t.count Event.dimQuery = 1 := by
    intro t ht
    rw [ht]
    rw [List.count_cons, List.count_append, count_dimQuery_scoreTraceOf]
    simp
  rw [happ]
  unfold applyWith
  by_cases he : (scoredOf ext model cfg file (some fs)).isEmpty
  · rw [if_pos he, hdim]
    exact ⟨rfl, by simp, hcount _ (by simp)⟩
  · rw [if_neg he,
      nFramesOf_eq_of_lookup hpre (cacheLookup_cacheInsert_self c file.uri fs), hdim]
    exact ⟨rfl, by simp, hcount _ (by simp)⟩

/-- Claim C4, counterexample to the claim as stated: a failing dimension
query does abort `apply`, but the trace of the failing call already
contains the extraction event and a scoring event — the work was
performed before the first dimension query, not after it. -/
theorem claim_C4_counterexample :
    resultError (apply exZero modelNoDim cfgA [] fileTen) =
      some "Model has no n_classes nor output_dim attribute." ∧
    (apply exZero modelNoDim cfgA [] fileTen).trace =
      [Event.extract 7, Event.score 10, Event.dimQuery] := by
  with_unfolding_all decide

/-- Claim C4, witness for the amended claim at a concrete run. -/
theorem claim_C4_witness :
    cacheLookup ([] : Cache) 7 = none ∧
    resultError (apply exZero modelNoDim cfgA [] fileTen) =
      some "Model has no n_classes nor output_dim attribute." :=
  ⟨rfl, (claim_C4_dim_failure_after_work exZero modelNoDim cfgA [] fileTen exFs
    rfl rfl rfl rfl rfl rfl).1⟩

/-! ## Claim C5 -/

/-- Claim C5, amended: `apply` requests incomplete batches at its
`from_file` call site regardless of the constructor-time flag, so with
`0 < n < batch_size` windows it runs exactly **one** model batch holding
all `n` windows (trace: extraction, one scoring event of size `n`, one
dimension query), and the value of the incomplete-batches flag has no
effect whatsoever on `apply`.  (As stated — flag disallowed implies zero
batches and an all-zero grid — the claim is refuted by the
counterexample.) -/
theorem claim_C5_trailing_batch_always_scored (ext : Extractor) (model : NNModel)
    (cfg : Config) (c : Cache) (file : CurrentFile) (fs : FeatSeries)
    (hpre : ext.precomputed = false) (hemb : file.features = none)
    (hmiss : cacheLookup c file.uri = none) (hex : ext.extract file.uri = .ok fs)
    (hlow : 0 < (genSegments cfg.duration cfg.step cfg.minDuration file.extent).length)
    (hhigh : (genSegments cfg.duration cfg.step cfg.minDuration file.extent).length <
      cfg.batchSize) :
    (apply ext model cfg c file).trace =
      [Event.extract file.uri,
        Event.score (genSegments cfg.duration cfg.step cfg.minDuration file.extent).length,
        Event.dimQuery] ∧
    (∀ b b' : Bool,
      apply ext model ⟨cfg.duration, cfg.minDuration, cfg.step, cfg.batchSize, b⟩ c file =
        apply ext model ⟨cfg.duration, cfg.minDuration, cfg.step, cfg.batchSize, b'⟩ c file) := by
  refine ⟨?_, fun b b' => rfl⟩
  have hb : batchesOf ext cfg file (some fs) = [windowsOf ext cfg file (some fs)] := by
    unfold batchesOf
    apply batchify_single
    · rw [windowsOf, List.length_map]
      exact hlow
    · rw [windowsOf, List.length_map]
      exact hhigh
  have hsc : scoredOf ext model cfg file (some fs) =
      [model.score (windowsOf ext cfg file (some fs))] := by
    unfold scoredOf
    rw [hb]
    rfl
  have hst : scoreTraceOf ext cfg file (some fs) =
      [Event.score (genSegments cfg.duration cfg.step cfg.minDuration file.extent).length] := by
    unfold scoreTraceOf
    rw [hb]
    simp [windowsOf]
  have happ : apply ext model cfg c file =
      applyWith ext model cfg file (some fs) (cacheInsert c file.uri fs)
        [Event.extract file.uri] := by
    unfold apply
    rw [preprocess_miss hpre hemb hmiss hex]
    rfl
  rw [happ]
  unfold applyWith
  rw [hsc, hst]
  rw [if_neg (by simp)]
  rw [nFramesOf_eq_of_lookup hpre (cacheLookup_cacheInsert_self c file.uri fs)]
  cases dimension model <;> simp

/-- Claim C5, counterexample to the claim as stated: with the
incomplete-batches-disallowed flag set at construction (`cfgA`),
`batch_size = 32` and only 10 generated windows, `apply` still runs one
model batch of 10 windows and the grid is not all zero (frame 0 carries
the constant model score 1). -/
theorem claim_C5_counterexample :
    Event.score 10 ∈ (apply exZero modelOne cfgA [] fileTen).trace ∧
      resultEntry (apply exZero modelOne cfgA [] fileTen) 0 0 = 1 := by
  with_unfolding_all decide

/-- Claim C5, witness for the amended claim: ten windows, batch size 32,
exactly one scoring event of size ten. -/
theorem claim_C5_witness :
    0 < (genSegments 1 1 none 10).length ∧ (genSegments 1 1 none 10).length < 32 ∧
    (apply exZero modelOne cfgA [] fileTen).trace =
      [Event.extract 7, Event.score (genSegments 1 1 none 10).length, Event.dimQuery] :=
  ⟨by with_unfolding_all decide, by with_unfolding_all decide,
    (claim_C5_trailing_batch_always_scored exZero modelOne cfgA [] fileTen exFs
      rfl rfl rfl rfl (by with_unfolding_all decide) (by with_unfolding_all decide)).1⟩

/-! ## Claim C6 -/

/-- Claim C6 (confirmed): when the Segment Generator produces zero
windows (signal too short), `apply` does not fail: it returns the
all-zero Prediction Grid of shape `(0, dimension)`. -/
theorem claim_C6_empty_windows_zero_grid (ext : Extractor) (model : NNModel) (cfg : Config)
    (c : Cache) (file : CurrentFile) (fs : FeatSeries) (d : ℕ)
    (hpre : ext.precomputed = false) (hemb : file.features = none)
    (hex : ext.extract file.uri = .ok fs) (hdim : dimension model = .ok d)
    (hempty : genSegments cfg.duration cfg.step cfg.minDuration file.extent = []) :
    (apply ext model cfg c file).result = .ok ⟨0, d, fun _ _ => 0⟩ := by
  have hsc : ∀ feats, scoredOf ext model cfg file feats = [] := by
    intro feats
    unfold scoredOf batchesOf windowsOf
    rw [hempty]
    rw [show (([] : List Segment).map fun s => materialize ext feats file.uri s cfg.duration) =
      [] from rfl]
    rw [batchify_nil]
    rfl
  unfold apply
  cases hl : cacheLookup c file.uri with
  | none =>
      rw [preprocess_miss hpre hemb hl hex]
      show (applyWith ext model cfg file (some fs) _ _).result = _
      unfold applyWith
      rw [hsc, hdim]
      rfl
  | some fs2 =>
      rw [preprocess_hit hpre hemb hl]
      show (applyWith ext model cfg file (some fs2) _ _).result = _
      unfold applyWith
      rw [hsc, hdim]
      rfl

/-- Claim C6, witness: a 0.3-second signal under `duration = 1` with no
`min_duration` yields zero windows, and `apply` returns the `(0, 2)`
all-zero grid. -/
theorem claim_C6_witness :
    genSegments cfgA.duration cfgA.step cfgA.minDuration fileShort.extent = [] ∧
    (apply exZero modelOne cfgA [] fileShort).result = .ok ⟨0, 2, fun _ _ => 0⟩ :=
  ⟨by with_unfolding_all decide,
    claim_C6_empty_windows_zero_grid exZero modelOne cfgA [] fileShort exFs 2
      rfl rfl rfl rfl (by with_unfolding_all decide)⟩

/-! ## Claim C7 -/

theorem cacheInsert_length_le (c : Cache) (u : ℕ) (fs : FeatSeries) :
    (cacheInsert c u fs).length ≤ CACHE_MAXSIZE := by
  unfold cacheInsert CACHE_MAXSIZE
  simp only [List.length_cons, List.length_take]
  omega

theorem cacheTouch_length_le {c : Cache} (u : ℕ) (h : c.length ≤ CACHE_MAXSIZE) :
    (cacheTouch c u).length ≤ CACHE_MAXSIZE := by
  unfold cacheTouch
  cases cacheLookup c u with
  | none => exact h
  | some fs => exact cacheInsert_length_le c u fs

/-- Claim C7 (confirmed): (i) `preprocess` never grows the feature cache
beyond `CACHE_MAXSIZE = 12` entries; and (ii) concretely, after
on-demand processing of 13 distinct signals the first signal is no
longer cached (LRU eviction) and processing it again invokes the
extraction collaborator anew. -/
theorem claim_C7_lru_capacity_12 :
    (∀ (ext : Extractor) (c : Cache) (file : CurrentFile) (r : PreOut),
      c.length ≤ CACHE_MAXSIZE → preprocess ext c file = .ok r →
        r.cache.length ≤ CACHE_MAXSIZE) ∧
    (cacheLookup (cacheAfter exZero files13 []) 0).isNone = true ∧
    preExtracted (preprocess exZero (cacheAfter exZero files13 []) ⟨0, none, 0⟩) = true := by
  refine ⟨?_, by with_unfolding_all decide, by with_unfolding_all decide⟩
  intro ext c file r hc hr
  unfold preprocess at hr
  by_cases hp : ext.precomputed = true
  · rw [if_pos hp] at hr
    cases hr
    exact hc
  · rw [if_neg hp] at hr
    cases hemb : file.features with
    | some fs =>
        rw [hemb] at hr
        cases hr
        exact hc
    | none =>
        rw [hemb] at hr
        cases hl : cacheLookup c file.uri with
        | some fs =>
            rw [hl] at hr
            cases hr
            exact cacheTouch_length_le file.uri hc
        | none =>
            rw [hl] at hr
            cases hx : ext.extract file.uri with
            | error e =>
                rw [hx] at hr
                exact absurd hr (by simp)
            | ok fs =>
                rw [hx] at hr
                cases hr
                exact cacheInsert_length_le c file.uri fs

/-- Claim C7, witness: the capacity bound applied to a concrete
single-insertion `preprocess` call. -/
theorem claim_C7_witness :
    ([] : Cache).length ≤ CACHE_MAXSIZE ∧
    (cacheInsert [] 0 exFs).length ≤ CACHE_MAXSIZE :=
  ⟨by with_unfolding_all decide,
    claim_C7_lru_capacity_12.1 exZero [] ⟨0, none, 0⟩ ⟨some exFs, cacheInsert [] 0 exFs, true⟩
      (by with_unfolding_all decide) rfl⟩

/-! ## Claim C8 -/

/-- Claim C8 (confirmed): when on-demand extraction of a cache-missed
signal fails, the error propagates verbatim out of `preprocess` and out
of `apply`, and the cache is left exactly as it was — no entry for the
signal is committed. -/
theorem claim_C8_extraction_failure_clean (ext : Extractor) (model : NNModel) (cfg : Config)
    (c : Cache) (file : CurrentFile) (e : String)
    (hpre : ext.precomputed = false) (hemb : file.features = none)
    (hmiss : cacheLookup c file.uri = none) (hex : ext.extract file.uri = .error e) :
    preprocess ext c file = .error e ∧
    (apply ext model cfg c file).result = .error e ∧
    (apply ext model cfg c file).cache = c := by
  have hp := preprocess_extract_error hpre hemb hmiss hex
  refine ⟨hp, ?_, ?_⟩
  · unfold apply
    rw [hp]
  · unfold apply
    rw [hp]

/-- Claim C8, witness: a failing extractor propagates its error through
`apply` and leaves the empty cache empty. -/
theorem claim_C8_witness :
    exFail.extract 7 = .error "extraction failed" ∧
    preprocess exFail [] fileTen = .error "extraction failed" ∧
    (apply exFail modelOne cfgA [] fileTen).result = .error "extraction failed" ∧
    (apply exFail modelOne cfgA [] fileTen).cache = [] :=
  ⟨rfl,
    (claim_C8_extraction_failure_clean exFail modelOne cfgA [] fileTen "extraction failed"
      rfl rfl rfl rfl).1,
    (claim_C8_extraction_failure_clean exFail modelOne cfgA [] fileTen "extraction failed"
      rfl rfl rfl rfl).2.1,
    (claim_C8_extraction_failure_clean exFail modelOne cfgA [] fileTen "extraction failed"
      rfl rfl rfl rfl).2.2⟩

/-! ## Claim C9 -/

theorem preprocess_cache_coherent {ext : Extractor} {c : Cache} {file : CurrentFile}
    {pre : PreOut} (hco : coherent ext c) (hp : preprocess ext c file = .ok pre) :
    coherent ext pre.cache := by
  unfold preprocess at hp
  by_cases hq : ext.precomputed = true
  · rw [if_pos hq] at hp
    cases hp
    exact hco
  · rw [if_neg hq] at hp
    cases hemb : file.features with
    | some fs =>
        rw [hemb] at hp
        cases hp
        exact hco
    | none =>
        rw [hemb] at hp
        cases hl : cacheLookup c file.uri with
        | some fs =>
            rw [hl] at hp
            cases hp
            exact coherent_cacheTouch hco
        | none =>
            rw [hl] at hp
            cases hx : ext.extract file.uri with
            | error e =>
                rw [hx] at hp
                exact absurd hp (by simp)
            | ok fs =>
                rw [hx] at hp
                cases hp
                exact coherent_cacheInsert hco hx

/-- Under a coherent cache, the result of `apply` is a function of the
extraction collaborator alone: it equals the result computed from an
empty cache seeded with the extracted series. -/
theorem apply_result_of_coherent (ext : Extractor) (model : NNModel) (cfg : Config)
    {c : Cache} (file : CurrentFile)
    (hpre : ext.precomputed = false) (hemb : file.features = none)
    (hco : coherent ext c) :
    (apply ext model cfg c file).result =
      (match ext.extract file.uri with
      | .error e => .error e
      | .ok fs =>
          (applyWith ext model cfg file (some fs) (cacheInsert [] file.uri fs) []).result) := by
  cases hex : ext.extract file.uri with
  | error e =>
      cases hl : cacheLookup c file.uri with
      | some fs =>
          have := coherent_extract hco hl
          rw [hex] at this
          exact absurd this (by simp)
      | none =>
          unfold apply
          rw [preprocess_extract_error hpre hemb hl hex]
  | ok fs =>
      cases hl : cacheLookup c file.uri with
      | none =>
          unfold apply
          rw [preprocess_miss hpre hemb hl hex]
          show (applyWith ext model cfg file (some fs) (cacheInsert c file.uri fs)
            [Event.extract file.uri]).result = _
          exact applyWith_result_congr ext model cfg file (some fs) _ _ hpre
            ((cacheLookup_cacheInsert_self c file.uri fs).trans
              (cacheLookup_cacheInsert_self [] file.uri fs).symm)
      | some fs2 =>
          have hfs : fs2 = fs := by
            have := coherent_extract hco hl
            rw [hex] at this
            exact (Except.ok.inj this).symm
          unfold apply
          rw [preprocess_hit hpre hemb hl, hfs]
          show (applyWith ext model cfg file (some fs) (cacheTouch c file.uri)
            (if false = true then [Event.extract file.uri] else [])).result = _
          exact applyWith_result_congr ext model cfg file (some fs) _ _ hpre
            ((cacheLookup_cacheTouch_self (hfs ▸ hl)).trans
              (cacheLookup_cacheInsert_self [] file.uri fs).symm)

/-- `apply` keeps the cache coherent. -/
theorem apply_cache_coherent (ext : Extractor) (model : NNModel) (cfg : Config)
    {c : Cache} (file : CurrentFile) (hco : coherent ext c) :
    coherent ext (apply ext model cfg c file).cache := by
  unfold apply
  cases hp : preprocess ext c file with
  | error e => exact hco
  | ok pre =>
      have hcoh1 : coherent ext pre.cache := preprocess_cache_coherent hco hp
      rcases applyWith_cache_cases ext model cfg file pre.feats pre.cache
        (if pre.extracted = true then [Event.extract file.uri] else []) with h | h <;> rw [h]
      · exact hcoh1
      · exact coherent_cacheTouch hcoh1

/-- Claim C9 (confirmed): for an on-demand extractor and any caches
coherent with it (in particular the empty cache of a first call and the
populated cache it leaves behind), the result of `apply` is the same —
cache presence changes performance, never results — and in particular
calling `apply` twice in a row on the same unmodified signal yields
identical results. -/
theorem claim_C9_apply_idempotent (ext : Extractor) (model : NNModel) (cfg : Config)
    (c c2 : Cache) (file : CurrentFile)
    (hpre : ext.precomputed = false) (hemb : file.features = none)
    (hco : coherent ext c) (hco2 : coherent ext c2) :
    (apply ext model cfg c file).result = (apply ext model cfg c2 file).result ∧
    (apply ext model cfg (apply ext model cfg c file).cache file).result =
      (apply ext model cfg c file).result := by
  refine ⟨?_, ?_⟩
  · rw [apply_result_of_coherent ext model cfg file hpre hemb hco,
      apply_result_of_coherent ext model cfg file hpre hemb hco2]
  · rw [apply_result_of_coherent ext model cfg file hpre hemb
      (apply_cache_coherent ext model cfg file hco),
      apply_result_of_coherent ext model cfg file hpre hemb hco]

/-- Claim C9, witness: a second `apply` on the cache left by the first
returns the same result as the first. -/
theorem claim_C9_witness :
    (apply exZero modelOne cfgA (apply exZero modelOne cfgA [] fileTen).cache fileTen).result =
      (apply exZero modelOne cfgA [] fileTen).result :=
  (claim_C9_apply_idempotent exZero modelOne cfgA [] [] fileTen rfl rfl
    (fun p hp => absurd hp (List.not_mem_nil p))
    (fun p hp => absurd hp (List.not_mem_nil p))).2

/-- Claim C10, witness: the divisor equals the true count 2 in the
two-window run, and differs from the true count 128 in the wrapped
run. -/
theorem claim_C10_witness :
    (1 ≤ trueCount ceGrid 2 1 0 twoScores 1 ∧
      max (storedK ceGrid 2 1 twoScores 1) 1 = (trueCount ceGrid 2 1 0 twoScores 1 : ℤ)) ∧
    (128 ≤ trueCount ceGrid 1 (1/128) 0 ceScores 0 ∧
      max (storedK ceGrid 1 (1/128) ceScores 0) 1 ≠ (trueCount ceGrid 1 (1/128) 0 ceScores 0 : ℤ)) :=
  ⟨⟨by with_unfolding_all decide,
      claim_C10_int8_counter.2.1 ceGrid 2 1 twoScores 1
        (by with_unfolding_all decide) (by with_unfolding_all decide)⟩,
    ⟨by with_unfolding_all decide,
      claim_C10_int8_counter.2.2.1 ceGrid 1 (1/128) ceScores 0 (by with_unfolding_all decide)⟩⟩

end SequenceLabeling
